import Mathlib

/-!
Verification development for the `node-cache-manager-redis` store
(`lib/redis-store.js`).  The store wraps a pooled Redis connection and
exposes get/set/del/reset/ttl/keys/getClient.  We shallow-embed the
option-resolution logic, the per-operation control flow (pool acquire,
command issue, `handleResponse` release-then-callback), the gzip/JSON
codec plumbing, the cursor-driven `keys` scan loop, and the
configuration resolver (`getFromUrl` / `applyOptionsToArgs` /
`cloneArgs`) as pure Lean functions.

External collaborators (Node's `JSON.stringify`/`JSON.parse`, `zlib`
gzip/gunzip, the `redis-url` parser, the connection pool and the Redis
server) are modelled as explicit function parameters or as outcome
parameters (`Except`), mirroring exactly how the store's code consumes
their results.  Each operation returns a trace recording how many times
the pooled connection was released, the callback invocations (each
paired with the number of releases performed before that invocation),
the commands issued to the connection, and the resulting keyspace.
-/

namespace RedisStore

/-- Redis keys are strings. -/
abbrev Key := String

/-- The remote keyspace: each key holds a raw stored payload (the bytes
written by `set`), or nothing. -/
abbrev Store := Key → Option String

/-! ### Compression policy

`redis-store.js` lines 40-50: the default compression config is
`{type: 'gzip', params: {level: zlib.Z_BEST_SPEED}}`; a boolean `true`
expands to it.  We model a config object as its `type` string together
with its optional `params.level`. -/

/-- A compression configuration object (`{type, params}`). -/
structure CompressCfg where
  ctype : String
  params : Option Nat
  deriving DecidableEq, Repr

/-- `compressDefault` from the constructor: gzip at `Z_BEST_SPEED` (= 1). -/
def compressDefault : CompressCfg := ⟨"gzip", some 1⟩

/-- The per-call `options.compress` field as JavaScript sees it:
absent (`undefined`), explicitly `false`, boolean `true`, or a config
object. -/
inductive CSetting
  | unset
  | off
  | on
  | cfg (c : CompressCfg)
  deriving DecidableEq, Repr

/-- Compression resolution shared by `get` (line 191-193) and `set`
(lines 232-235):
`(options.compress || options.compress === false) ? options.compress
 : redisOptions.compress`, then boolean `true` is expanded to
`compressDefault`.  The store-level `redisOptions.compress` has already
had `true` expanded at construction (line 48), so it is `none` (absent
or `false`) or a config object. -/
def resolveCompress : CSetting → Option CompressCfg → Option CompressCfg
  | .unset, storeC => storeC
  | .off, _ => none
  | .on, _ => some compressDefault
  | .cfg c, _ => some c

/-! ### Time-to-live resolution (`set`, line 231) -/

/-- `(options.ttl || options.ttl === 0) ? options.ttl : redisOptions.ttl`:
any present numeric per-call ttl (truthy, or exactly 0) wins; an absent
per-call ttl falls back to the store-wide default. -/
def resolveTtl : Option Nat → Option Nat → Option Nat
  | some n, _ => some n
  | none, storeTtl => storeTtl

/-- JavaScript truthiness of the resolved ttl (`if (ttl)`, line 249):
`undefined` and `0` are falsy, so only a present non-zero ttl selects
`SETEX`. -/
def ttlTruthy : Option Nat → Bool
  | some n => decide (n ≠ 0)
  | none => false

/-! ### Commands issued on a borrowed connection -/

/-- The Redis commands the store issues. `multiExec cs` is one
MULTI/EXEC transaction containing the queued commands `cs`. -/
inductive Cmd
  | getC (k : Key)
  | setC (k : Key) (v : String)
  | setex (k : Key) (t : Nat) (v : String)
  | delC (k : Key)
  | multiExec (cs : List Cmd)
  | flushdb
  | ttlC (k : Key)
  | scan (cursor : String) (pat : String) (count : Nat)

/-! ### JavaScript values (for the cacheable-value predicate) -/

/-- A JavaScript value, as far as the store's default
`isCacheableValue` predicate and the `'value cannot be ' + value`
error message need to distinguish. -/
inductive JSVal
  | undef
  | null
  | bool (b : Bool)
  | num (n : Int)
  | str (s : String)
  | arr (elems : List JSVal)
  | obj (fields : List (String × JSVal))

/-- The default cacheable-value predicate (lines 413-415):
`value !== undefined && value !== null`. -/
def defaultIsCacheableValue : JSVal → Bool
  | .undef => false
  | .null => false
  | _ => true

mutual
/-- JavaScript string coercion `'' + value`, as used in the `set`
validation error message. -/
def jsToString : JSVal → String
  | .undef => "undefined"
  | .null => "null"
  | .bool b => cond b "true" "false"
  | .num n => toString n
  | .str s => s
  | .arr l => jsToStrings l
  | .obj _ => "[object Object]"

/-- Array-to-string coercion: elements joined by commas; `null` and
`undefined` elements render as the empty string. -/
def jsToStrings : List JSVal → String
  | [] => ""
  | [v] => jsElemToString v
  | v :: rest => jsElemToString v ++ "," ++ jsToStrings rest

/-- One array element under string coercion. -/
def jsElemToString : JSVal → String
  | .undef => ""
  | .null => ""
  | v => jsToString v
end

/-! ### Operation traces

Each operation is embedded as a pure function of its environment
outcomes (pool acquisition, command success/failure, codec outcomes)
returning a trace.  `cb` lists the callback invocations in order; each
entry pairs the number of `pool.release(conn)` calls performed before
that invocation with the value/error handed to the callback.
`handleResponse` (lines 74-110) releases first (line 78) and then
invokes the callback, so callbacks routed through it carry release
count 1. -/

/-- Trace of a `get` call: `V` is the decoded-value type produced by
the JSON parser. -/
structure GetTrace (V : Type) where
  acquires : Nat
  releases : Nat
  cb : List (Nat × Except String V)
  cmds : List Cmd

/-- Trace of a `set` call. -/
structure SetTrace (V : Type) where
  acquires : Nat
  releases : Nat
  cb : List (Nat × Except String String)
  cmds : List Cmd
  store : Store

/-- Trace of `del`/`reset` (raw, unparsed replies). -/
structure RawTrace where
  acquires : Nat
  releases : Nat
  cb : List (Nat × Except String String)
  cmds : List Cmd
  store : Store

/-- Trace of a `ttl` call (integer reply). -/
structure TtlTrace where
  acquires : Nat
  releases : Nat
  cb : List (Nat × Except String Int)
  cmds : List Cmd

/-- `self.get` (lines 180-205) composed with `handleResponse` with
`opts.parse = true` and the resolved `opts.compress`:

* pool acquisition failure invokes the callback with the error, no
  release (nothing was acquired);
* on a command error the connection is released, then the callback
  receives the error;
* otherwise the reply is the stored payload (`none` = Redis nil).  With
  compression resolved active and a non-nil reply (a Buffer, always
  truthy), the payload is gunzipped — a gunzip error goes to the
  callback — and the result is JSON-parsed; otherwise the reply is
  JSON-parsed directly (`JSON.parse` of a nil reply is modelled by
  `jparse none`).  A parse error goes to the callback. -/
def getOp {V : Type} (gunzip : String → CompressCfg → Except String String)
    (jparse : Option String → Except String V)
    (storeC : Option CompressCfg)
    (acquire : Except String Unit) (cmdErr : Option String)
    (store : Store) (k : Key) (oC : CSetting) : GetTrace V :=
  let compress := resolveCompress oC storeC
  match acquire with
  | .error e => ⟨1, 0, [(0, .error e)], []⟩
  | .ok _ =>
    match cmdErr with
    | some e => ⟨1, 1, [(1, .error e)], [Cmd.getC k]⟩
    | none =>
      let result := store k
      let out : Except String V :=
        match result, compress with
        | some s, some c =>
          match gunzip s c with
          | .error ge => .error ge
          | .ok t => jparse (some t)
        | r, _ => jparse r
      ⟨1, 1, [(1, out)], [Cmd.getC k]⟩

/-- `self.set` (lines 218-263):

* a value rejected by the cacheable-value predicate errors out before
  `connect` (no acquisition, no command);
* ttl and compression are resolved (`resolveTtl`, `resolveCompress`);
* the payload is `JSON.stringify(value) || '"undefined"'`;
* with compression active the payload is gzipped; a gzip error invokes
  the callback **without releasing the connection** (the `persist`
  error branch, line 245-247, does not call `pool.release`);
* `persist` issues `SETEX` when the resolved ttl is truthy, else a
  plain `SET`, through `handleResponse` (release, then callback). -/
def setOp {V : Type} (stringify : V → Option String) (vshow : V → String)
    (gz : String → CompressCfg → Except String String)
    (cacheable : V → Bool) (storeTtl : Option Nat) (storeC : Option CompressCfg)
    (acquire : Except String Unit) (cmdErr : Option String)
    (store : Store) (k : Key) (v : V)
    (oTtl : Option Nat) (oC : CSetting) : SetTrace V :=
  if cacheable v then
    let t := resolveTtl oTtl storeTtl
    let compress := resolveCompress oC storeC
    match acquire with
    | .error e => ⟨1, 0, [(0, .error e)], [], store⟩
    | .ok _ =>
      let val := (stringify v).getD "\"undefined\""
      let persist : String → SetTrace V := fun pVal =>
        let cmd := if ttlTruthy t then Cmd.setex k (t.getD 0) pVal else Cmd.setC k pVal
        match cmdErr with
        | some e => ⟨1, 1, [(1, .error e)], [cmd], store⟩
        | none => ⟨1, 1, [(1, .ok "OK")], [cmd],
                   fun k2 => if k2 = k then some pVal else store k2⟩
      match compress with
      | some c =>
        match gz val c with
        | .error pe => ⟨1, 0, [(0, .error pe)], [], store⟩
        | .ok zv => persist zv
      | none => persist val
  else
    ⟨0, 0, [(0, .error ("value cannot be " ++ vshow v))], [], store⟩

/-- `self.del` (lines 273-299): an array of keys is queued as one
MULTI/EXEC transaction holding one DEL per key; a single key issues one
DEL.  Completion goes through `handleResponse` with empty opts.  (The
raw reply value is abstracted as "OK".) -/
def delOp (acquire : Except String Unit) (cmdErr : Option String)
    (store : Store) (key : Key ⊕ List Key) : RawTrace :=
  match acquire with
  | .error e => ⟨1, 0, [(0, .error e)], [], store⟩
  | .ok _ =>
    match key with
    | .inr ks =>
      let cmd := Cmd.multiExec (ks.map Cmd.delC)
      match cmdErr with
      | some e => ⟨1, 1, [(1, .error e)], [cmd], store⟩
      | none => ⟨1, 1, [(1, .ok "OK")], [cmd],
                 fun k2 => if k2 ∈ ks then none else store k2⟩
    | .inl k =>
      match cmdErr with
      | some e => ⟨1, 1, [(1, .error e)], [Cmd.delC k], store⟩
      | none => ⟨1, 1, [(1, .ok "OK")], [Cmd.delC k],
                 fun k2 => if k2 = k then none else store k2⟩

/-- `self.reset` (lines 307-317): FLUSHDB through `handleResponse`. -/
def resetOp (acquire : Except String Unit) (cmdErr : Option String)
    (store : Store) : RawTrace :=
  match acquire with
  | .error e => ⟨1, 0, [(0, .error e)], [], store⟩
  | .ok _ =>
    match cmdErr with
    | some e => ⟨1, 1, [(1, .error e)], [Cmd.flushdb], store⟩
    | none => ⟨1, 1, [(1, .ok "OK")], [Cmd.flushdb], fun _ => none⟩

/-- `self.ttl` (lines 326-336): TTL through `handleResponse`;
`ttlReply` is the server's integer answer. -/
def ttlOp (acquire : Except String Unit) (cmdErr : Option String)
    (ttlReply : Int) (k : Key) : TtlTrace :=
  match acquire with
  | .error e => ⟨1, 0, [(0, .error e)], []⟩
  | .ok _ =>
    match cmdErr with
    | some e => ⟨1, 1, [(1, .error e)], [Cmd.ttlC k]⟩
    | none => ⟨1, 1, [(1, .ok ttlReply)], [Cmd.ttlC k]⟩

/-- Trace of `getClient` (lines 423-443): on success the callback
receives the raw connection together with a `done` function; each
invocation of `done` performs one `pool.release(conn)`.  `releases`
counts releases over the whole exchange given the caller invoked
`done` `doneCalls` times; the callback itself runs before any
release. -/
structure ClientTrace where
  acquires : Nat
  releases : Nat
  cbCalls : Nat
  releasesBeforeCb : Nat

/-- `self.getClient`: acquisition failure errors out; success hands the
connection to the caller, releasing only on (each) `done`. -/
def getClientOp (acquire : Except String Unit) (doneCalls : Nat) : ClientTrace :=
  match acquire with
  | .error _ => ⟨1, 0, 1, 0⟩
  | .ok _ => ⟨1, doneCalls, 1, 0⟩

/-! ### `keys` and the cursor-driven scan loop (lines 347-402) -/

/-- One SCAN step outcome from the server: an error, or a pair of the
next cursor token and the batch of keys. -/
abbrev ScanStep := Except String (String × List Key)

/-- `keysObj[keys[i]] = 1` (line 390): the deduplicating accumulator,
modelled as the list of first occurrences in discovery order
(`Object.keys` enumeration of the string-keyed object). -/
def insertKey (acc : List Key) (k : Key) : List Key :=
  if k ∈ acc then acc else acc ++ [k]

/-- Merge one batch of scanned keys into the accumulator (the `for`
loop of lines 389-391). -/
def mergeKeys (acc : List Key) (ks : List Key) : List Key :=
  ks.foldl insertKey acc

/-- Trace of a `keys` call.  `stepsIssued` counts `conn.scan` calls;
`incomplete = true` marks a run that consumed every modelled server
response without ever terminating (the real code would still be
looping). -/
structure KeysTrace where
  acquires : Nat
  releases : Nat
  cb : List (Nat × Except String (List Key))
  stepsIssued : Nat
  incomplete : Bool
  deriving Repr

/-- The recursive `nextBatch` closure (lines 380-399), consuming the
server's scan-step responses in order:

* on a step error, `handleResponse(conn, cb)(err)` releases the
  connection and invokes the callback with the error.  The code lacks a
  `return` there, but the very next line reads `result[0]` with
  `result` undefined, so a TypeError aborts the iteration: no further
  step is issued and the callback is not invoked again;
* on success the batch is merged into the deduplicating accumulator;
  if the returned cursor differs from the sentinel `'0'` the loop
  recurses with it, otherwise `handleResponse` releases the connection
  and delivers `Object.keys(keysObj)`. -/
def nextBatch : List ScanStep → List Key → KeysTrace
  | [], _ => ⟨0, 0, [], 0, true⟩
  | .error e :: _, _ => ⟨0, 1, [(1, .error e)], 1, false⟩
  | .ok (cur, ks) :: rest, acc =>
    let acc2 := mergeKeys acc ks
    if cur ≠ "0" then
      let t := nextBatch rest acc2
      { t with stepsIssued := t.stepsIssued + 1 }
    else
      ⟨0, 1, [(1, .ok acc2)], 1, false⟩

/-- `self.keys` after argument normalization: acquire a connection,
then run the scan loop starting from an empty accumulator and cursor
0. -/
def keysOp (acquire : Except String Unit) (steps : List ScanStep) : KeysTrace :=
  match acquire with
  | .error e => ⟨1, 0, [(0, .error e)], 0, false⟩
  | .ok _ => { nextBatch steps [] with acquires := 1 }

/-- The argument permutations `keys` accepts (lines 350-367): only the
callback; options and callback; pattern and callback; or all three.
The scanCount component is the `options.scanCount` field. -/
inductive KeysCall
  | cbOnly
  | optsCb (scanCount : Option Nat)
  | patCb (p : String)
  | patOptsCb (p : String) (scanCount : Option Nat)

/-- Argument disambiguation: a function first argument means pattern
and options were omitted (pattern defaults to `'*'`); an object first
argument is the options (pattern defaults to `'*'`); a function second
argument means options were omitted. -/
def normalizeKeysArgs : KeysCall → String × Option Nat
  | .cbOnly => ("*", none)
  | .optsCb sc => ("*", sc)
  | .patCb p => (p, none)
  | .patOptsCb p sc => (p, sc)

/-- `var scanCount = Number(options.scanCount) || 100;` (line 378):
an absent option (`Number(undefined)` is NaN, falsy) and an explicit 0
both fall back to 100. -/
def effectiveScanCount : Option Nat → Nat
  | some n => if n = 0 then 100 else n
  | none => 100

/-! ### Configuration resolver (lines 30-50, 119-169) -/

/-- The result of `redisUrl.parse` on a connection string, as consumed
by `applyOptionsToArgs`: `hostname`, `port` and `database` (strings,
fed to `parseInt`), the optional `password`, and the optional
`query.ttl`. -/
structure ParsedUrl where
  hostname : String
  port : String
  database : String
  password : Option String
  queryTtl : Option String

/-- The caller-supplied configuration object.  `extra` stands for any
further own properties (copied verbatim by `cloneArgs`' `for..in`
loop).  `detect_buffers` is absent (`none`) unless the constructor has
set it. -/
structure Args where
  host : Option String
  port : Option Int
  db : Option Int
  ttl : Option Int
  auth_pass : Option String
  password : Option String
  url : Option String
  compress : CSetting
  detect_buffers : Option Bool
  extra : List (String × String)
  deriving DecidableEq, Repr

/-- `parseInt(s, 10)`: an optional sign followed by leading decimal
digits; no digits gives NaN, modelled as `none`. -/
def parseIntM (s : String) : Option Int :=
  let core : List Char → Option Nat := fun l =>
    let ds := l.takeWhile Char.isDigit
    if ds.isEmpty then none
    else some (ds.foldl (fun a c => a * 10 + (c.toNat - 48)) 0)
  match s.data with
  | '-' :: rest => (core rest).map (fun n => -(n : Int))
  | l => (core l).map Int.ofNat

/-- `cloneArgs` (lines 140-149) copies every own property to a fresh
object and rebinds `isCacheableValue` to the clone.  On our immutable
field model a clone is the identical value (the rebinding changes only
the JavaScript `this`, not any field). -/
def cloneArgs (args : Args) : Args := args

/-- `applyOptionsToArgs` (lines 158-169): clone the args, then
overwrite host, port, db, auth_pass and password from the parsed url,
and ttl when `options.query.ttl` is present and truthy. -/
def applyOptionsToArgs (args : Args) (options : ParsedUrl) : Args :=
  let newArgs := cloneArgs args
  { newArgs with
    host := some options.hostname
    port := parseIntM options.port
    db := parseIntM options.database
    auth_pass := options.password
    password := options.password
    ttl := match options.queryTtl with
           | some t => if t = "" then newArgs.ttl else parseIntM t
           | none => newArgs.ttl }

/-- `getFromUrl` (lines 119-133): when `args.url` is a string it is
parsed; a successful parse yields the overridden clone, a parse
exception (or an absent/non-string url) yields the original args
unchanged, with no error surfaced. -/
def getFromUrl (parse : String → Except String ParsedUrl) (args : Args) : Args :=
  match args.url with
  | none => args
  | some u =>
    match parse u with
    | .ok options => applyOptionsToArgs args options
    | .error _ => args

/-- JavaScript `x || d` for an optional string field: absent and the
empty string are falsy. -/
def jsOrStr (o : Option String) (d : String) : String :=
  match o with
  | some s => if s = "" then d else s
  | none => d

/-- JavaScript `x || d` for an optional numeric field: absent and 0
are falsy. -/
def jsOrInt (o : Option Int) (d : Int) : Int :=
  match o with
  | some n => if n = 0 then d else n
  | none => d

/-- The constructor's in-place edits of `redisOptions` (lines 34-50):
host/port/db defaulted, `detect_buffers` set, and a boolean `true`
compress option expanded to `compressDefault`. -/
def mutateDefaults (a : Args) : Args :=
  { a with
    host := some (jsOrStr a.host "127.0.0.1")
    port := some (jsOrInt a.port 6379)
    db := some (jsOrInt a.db 0)
    detect_buffers := some true
    compress := match a.compress with
                | .on => .cfg compressDefault
                | c => c }

/-- Whether the url path produced a fresh object: `args.url` is a
string and `redisUrl.parse` succeeded on it. -/
def urlApplies (parse : String → Except String ParsedUrl) (args : Args) : Bool :=
  match args.url with
  | some u => match parse u with
              | .ok _ => true
              | .error _ => false
  | none => false

/-- The effective `redisOptions` after construction. -/
def constructorRedisOptions (parse : String → Except String ParsedUrl)
    (args : Args) : Args :=
  mutateDefaults (getFromUrl parse args)

/-- The caller's `args` object as observable after construction:
`var redisOptions = getFromUrl(args) || args` aliases the caller's
object exactly when no parsable url was supplied, in which case the
constructor's edits (lines 34-50) land on the caller's object; with a
parsable url they land on the clone returned by
`applyOptionsToArgs`. -/
def constructorArgsAfter (parse : String → Except String ParsedUrl)
    (args : Args) : Args :=
  if urlApplies parse args then args else mutateDefaults args

/-! ### The `get` options-object mutation (lines 186-195) -/

/-- The caller's options object for `get`: a `parse` property (absent
before the call) and the `compress` setting. -/
structure GetOptions where
  parse : Option Bool
  compress : CSetting
  deriving DecidableEq, Repr

/-- The caller's options object after `get` has run its preamble:
`options.parse = true` is always assigned, and when the resolved
compression is active, `options.compress` is overwritten with the
resolved config object (a boolean `true` having been expanded to
`compressDefault`). -/
def getOptionsAfter (o : GetOptions) (storeC : Option CompressCfg) : GetOptions :=
  let o1 := { o with parse := some true }
  match resolveCompress o.compress storeC with
  | some c => { o1 with compress := .cfg c }
  | none => o1

/-! ### Concrete codec instances (used by the closed witnesses) -/

/-- A concrete serializer for naturals (stands in for `JSON.stringify`
on a number): unary notation, `n` letters `x`. -/
def natStringify : Nat → Option String :=
  fun n => some (String.mk (List.replicate n 'x'))

/-- A concrete parser inverting `natStringify` (stands in for
`JSON.parse`); a nil reply is a parse error here. -/
def natParse : Option String → Except String Nat
  | some t => .ok t.data.length
  | none => .error "nil"

/-- A concrete invertible "compressor": prefix a marker byte. -/
def demoGzip : String → CompressCfg → Except String String :=
  fun t _ => .ok ("G" ++ t)

/-- The inverse of `demoGzip`: drop the marker byte. -/
def demoGunzip : String → CompressCfg → Except String String :=
  fun t _ => .ok (String.mk (t.data.drop 1))

/-! ### Helper lemmas on the deduplicating accumulator -/

theorem mem_insertKey {acc : List Key} {k x : Key} :
    x ∈ insertKey acc k ↔ x ∈ acc ∨ x = k := by
  unfold insertKey
  by_cases h : k ∈ acc
  · rw [if_pos h]
    constructor
    · exact Or.inl
    · rintro (hx | rfl)
      · exact hx
      · exact h
  · rw [if_neg h]
    simp [List.mem_append]

theorem nodup_insertKey {acc : List Key} {k : Key} (h : acc.Nodup) :
    (insertKey acc k).Nodup := by
  unfold insertKey
  by_cases hk : k ∈ acc
  · rwa [if_pos hk]
  · rw [if_neg hk]
    simp [List.nodup_append, h, hk]

theorem mergeKeys_cons (acc : List Key) (k : Key) (ks : List Key) :
    mergeKeys acc (k :: ks) = mergeKeys (insertKey acc k) ks := rfl

theorem mem_mergeKeys : ∀ (ks acc : List Key) (x : Key),
    x ∈ mergeKeys acc ks ↔ x ∈ acc ∨ x ∈ ks
  | [], acc, x => by simp [mergeKeys]
  | k :: ks, acc, x => by
    rw [mergeKeys_cons, mem_mergeKeys ks, mem_insertKey]
    simp [List.mem_cons]
    tauto

theorem nodup_mergeKeys : ∀ (ks acc : List Key), acc.Nodup → (mergeKeys acc ks).Nodup
  | [], _, h => h
  | _ :: ks, _, h => nodup_mergeKeys ks _ (nodup_insertKey h)

/-- C1: for every value accepted by the cacheable-value predicate that
round-trips through the external JSON codec, `set(k, v)` followed by
`get(k)` on the resulting store, with the same compression setting in
effect for both calls, delivers exactly `v` to the `get` callback; the
stored payload is the JSON serialization of `v` when the resolved
compression policy is inactive, and its gzip image when active, and
`get` inverts this by gunzipping (when active) and JSON-parsing. -/
theorem set_get_roundtrip {V : Type}
    (stringify : V → Option String) (vshow : V → String)
    (gz gunzip : String → CompressCfg → Except String String)
    (jparse : Option String → Except String V)
    (cacheable : V → Bool) (storeTtl : Option Nat) (storeC : Option CompressCfg)
    (store : Store) (k : Key) (v : V) (s p : String)
    (oTtl : Option Nat) (oC : CSetting)
    (hc : cacheable v = true) (hs : stringify v = some s)
    (hj : jparse (some s) = .ok v)
    (hp : match resolveCompress oC storeC with
          | none => p = s
          | some c => gz s c = .ok p ∧ gunzip p c = .ok s) :
    (setOp stringify vshow gz cacheable storeTtl storeC (.ok ()) none store k v oTtl oC).store k
      = some p
    ∧ (getOp gunzip jparse storeC (.ok ()) none
        ((setOp stringify vshow gz cacheable storeTtl storeC (.ok ()) none store k v oTtl oC).store)
        k oC).cb = [(1, .ok v)] := by
  have hval : (stringify v).getD "\"undefined\"" = s := by rw [hs]; rfl
  cases hrc : resolveCompress oC storeC with
  | none =>
    rw [hrc] at hp
    subst hp
    refine ⟨?_, ?_⟩ <;> simp [setOp, getOp, hc, hrc, hval, hj]
  | some c =>
    rw [hrc] at hp
    obtain ⟨hgz, hgunz⟩ := hp
    refine ⟨?_, ?_⟩ <;> simp [setOp, getOp, hc, hrc, hval, hgz, hgunz, hj]

/-- Witness for C1: a concrete value, codec and active compression
policy; the payload stored is the compressed serialization and `get`
returns the original value. -/
theorem set_get_roundtrip_witness :
    (setOp natStringify toString demoGzip (fun _ => true) none none (.ok ()) none
        (fun _ => none) "k" 5 none .on).store "k" = some "Gxxxxx"
    ∧ (getOp demoGunzip natParse none (.ok ()) none
        ((setOp natStringify toString demoGzip (fun _ => true) none none (.ok ()) none
            (fun _ => none) "k" 5 none .on).store) "k" .on).cb = [(1, .ok 5)] :=
  set_get_roundtrip natStringify toString demoGzip demoGunzip natParse
    (fun _ => true) none none (fun _ => none) "k" 5 "xxxxx" "Gxxxxx" none .on
    rfl rfl rfl ⟨rfl, rfl⟩

/-! ### Scan-loop lemmas -/

theorem nextBatch_all_ok : ∀ (init : List (String × List Key)) (lastKs : List Key)
    (acc : List Key), (∀ pr ∈ init, pr.1 ≠ "0") →
    nextBatch (init.map Except.ok ++ [Except.ok ("0", lastKs)]) acc =
      ⟨0, 1,
       [(1, .ok (mergeKeys (init.foldl (fun a pr => mergeKeys a pr.2) acc) lastKs))],
       init.length + 1, false⟩
  | [], lastKs, acc, _ => by
    simp [nextBatch]
  | (c, ks) :: init, lastKs, acc, h => by
    have hc : c ≠ "0" := h (c, ks) (List.mem_cons_self _ _)
    have ih := nextBatch_all_ok init lastKs (mergeKeys acc ks)
        (fun pr hpr => h pr (List.mem_cons_of_mem _ hpr))
    simp only [List.map_cons, List.cons_append, nextBatch]
    rw [if_pos hc]
    simp only [List.append_eq]
    rw [ih]
    simp [List.foldl_cons]

theorem nextBatch_error : ∀ (init : List (String × List Key)) (e : String)
    (rest : List ScanStep) (acc : List Key), (∀ pr ∈ init, pr.1 ≠ "0") →
    nextBatch (init.map Except.ok ++ (Except.error e :: rest)) acc =
      ⟨0, 1, [(1, .error e)], init.length + 1, false⟩
  | [], e, rest, acc, _ => by
    simp [nextBatch]
  | (c, ks) :: init, e, rest, acc, h => by
    have hc : c ≠ "0" := h (c, ks) (List.mem_cons_self _ _)
    have ih := nextBatch_error init e rest (mergeKeys acc ks)
        (fun pr hpr => h pr (List.mem_cons_of_mem _ hpr))
    simp only [List.map_cons, List.cons_append, nextBatch]
    rw [if_pos hc]
    simp only [List.append_eq]
    rw [ih]
    simp

theorem mem_foldl_mergeKeys : ∀ (l : List (List Key)) (acc : List Key) (x : Key),
    x ∈ l.foldl mergeKeys acc ↔ x ∈ acc ∨ x ∈ l.flatten
  | [], acc, x => by simp
  | ks :: l, acc, x => by
    rw [List.foldl_cons, mem_foldl_mergeKeys l, mem_mergeKeys]
    simp [or_assoc]

theorem nodup_foldl_mergeKeys : ∀ (l : List (List Key)) (acc : List Key),
    acc.Nodup → (l.foldl mergeKeys acc).Nodup
  | [], _, h => h
  | ks :: l, acc, h => nodup_foldl_mergeKeys l _ (nodup_mergeKeys ks acc h)

/-- C3: on a scan run whose steps all succeed, with every intermediate
cursor different from the sentinel `'0'` and the final step returning
`'0'`, `keys` delivers to its callback a deduplicated list containing a
key if and only if some batch contained it — each key exactly once even
when batches overlap — after issuing exactly one scan step per server
response; `keys()` with pattern omitted scans with pattern `'*'`, and
the per-step count hint defaults to 100 when no `scanCount` option is
given. -/
theorem keys_dedup_and_defaults
    (init : List (String × List Key)) (lastKs : List Key)
    (hinit : ∀ pr ∈ init, pr.1 ≠ "0") :
    (∃ res : List Key,
      (keysOp (.ok ()) (init.map Except.ok ++ [Except.ok ("0", lastKs)])).cb
          = [(1, .ok res)]
      ∧ res.Nodup
      ∧ (∀ x, x ∈ res ↔ x ∈ (init.map Prod.snd).flatten ++ lastKs)
      ∧ (keysOp (.ok ()) (init.map Except.ok ++ [Except.ok ("0", lastKs)])).stepsIssued
          = init.length + 1
      ∧ (keysOp (.ok ()) (init.map Except.ok ++ [Except.ok ("0", lastKs)])).incomplete
          = false)
    ∧ normalizeKeysArgs .cbOnly = ("*", none)
    ∧ (∀ sc, normalizeKeysArgs (.optsCb sc) = ("*", sc))
    ∧ effectiveScanCount none = 100 := by
  refine ⟨?_, rfl, fun sc => rfl, rfl⟩
  have hrun := nextBatch_all_ok init lastKs [] hinit
  have hfold : init.foldl (fun a pr => mergeKeys a pr.2) ([] : List Key)
      = (init.map Prod.snd).foldl mergeKeys [] := by
    rw [List.foldl_map]
  refine ⟨mergeKeys ((init.map Prod.snd).foldl mergeKeys []) lastKs, ?_, ?_, ?_, ?_, ?_⟩
  · simp [keysOp, hrun, hfold]
  · exact nodup_mergeKeys _ _ (nodup_foldl_mergeKeys _ _ List.nodup_nil)
  · intro x
    rw [mem_mergeKeys, mem_foldl_mergeKeys, List.mem_append]
    simp
  · simp [keysOp, hrun]
  · simp [keysOp, hrun]

/-- Witness for C3: two overlapping batches (`"a"` occurs in both
steps) on a non-trivial cursor run; the hypothesis on intermediate
cursors is discharged by `decide` and the theorem applied outright. -/
theorem keys_dedup_witness :
    (∀ pr ∈ [("7", ["a", "b"])], Prod.fst pr ≠ "0")
    ∧ ((∃ res : List Key,
        (keysOp (.ok ()) ([("7", ["a", "b"])].map Except.ok
            ++ [Except.ok ("0", ["a", "c"])])).cb = [(1, .ok res)]
        ∧ res.Nodup
        ∧ (∀ x, x ∈ res ↔ x ∈ ([("7", ["a", "b"])].map Prod.snd).flatten ++ ["a", "c"])
        ∧ (keysOp (.ok ()) ([("7", ["a", "b"])].map Except.ok
            ++ [Except.ok ("0", ["a", "c"])])).stepsIssued = [("7", ["a", "b"])].length + 1
        ∧ (keysOp (.ok ()) ([("7", ["a", "b"])].map Except.ok
            ++ [Except.ok ("0", ["a", "c"])])).incomplete = false)
      ∧ normalizeKeysArgs .cbOnly = ("*", none)
      ∧ (∀ sc, normalizeKeysArgs (.optsCb sc) = ("*", sc))
      ∧ effectiveScanCount none = 100) :=
  ⟨by decide, keys_dedup_and_defaults [("7", ["a", "b"])] ["a", "c"] (by decide)⟩

/-- C4: when a scan step fails after any number of successful
non-terminal steps, the iteration stops at that step: the caller's
callback receives exactly that error (and never a key list), no
further scan step is issued — whatever responses the server would
still have given — and the connection is released exactly once, before
the callback. -/
theorem keys_error_aborts
    (init : List (String × List Key)) (e : String) (rest : List ScanStep)
    (hinit : ∀ pr ∈ init, pr.1 ≠ "0") :
    (keysOp (.ok ()) (init.map Except.ok ++ (Except.error e :: rest))).cb
        = [(1, .error e)]
    ∧ (keysOp (.ok ()) (init.map Except.ok ++ (Except.error e :: rest))).releases = 1
    ∧ (keysOp (.ok ()) (init.map Except.ok ++ (Except.error e :: rest))).stepsIssued
        = init.length + 1
    ∧ (keysOp (.ok ()) (init.map Except.ok ++ (Except.error e :: rest))).incomplete
        = false := by
  have hrun := nextBatch_error init e rest [] hinit
  refine ⟨?_, ?_, ?_, ?_⟩ <;> simp [keysOp, hrun]

/-- Witness for C4: one successful step, then a failing one; two more
server responses were available but only two steps were issued. -/
theorem keys_error_aborts_witness :
    (∀ pr ∈ [("9", ["a"])], Prod.fst pr ≠ "0")
    ∧ ((keysOp (.ok ()) ([("9", ["a"])].map Except.ok
          ++ (Except.error "scanfail" :: [Except.ok ("5", ["b"]), Except.ok ("0", ["c"])]))).cb
        = [(1, .error "scanfail")]
      ∧ (keysOp (.ok ()) ([("9", ["a"])].map Except.ok
          ++ (Except.error "scanfail" :: [Except.ok ("5", ["b"]), Except.ok ("0", ["c"])]))).releases = 1
      ∧ (keysOp (.ok ()) ([("9", ["a"])].map Except.ok
          ++ (Except.error "scanfail" :: [Except.ok ("5", ["b"]), Except.ok ("0", ["c"])]))).stepsIssued
        = [("9", ["a"])].length + 1
      ∧ (keysOp (.ok ()) ([("9", ["a"])].map Except.ok
          ++ (Except.error "scanfail" :: [Except.ok ("5", ["b"]), Except.ok ("0", ["c"])]))).incomplete
        = false) :=
  ⟨by decide,
   keys_error_aborts [("9", ["a"])] "scanfail" [Except.ok ("5", ["b"]), Except.ok ("0", ["c"])]
     (by decide)⟩

/-- "Released exactly once, before the single callback invocation":
total releases is 1, and the callback ran once, after that release. -/
def releasedOnceBeforeCb {ρ : Type} (releases : Nat)
    (cb : List (Nat × Except String ρ)) : Prop :=
  releases = 1 ∧ ∃ out, cb = [(1, out)]

theorem nextBatch_released_once : ∀ (steps : List ScanStep) (acc : List Key),
    (nextBatch steps acc).incomplete = false →
    releasedOnceBeforeCb (nextBatch steps acc).releases (nextBatch steps acc).cb
  | [], acc, h => by simp [nextBatch] at h
  | .error e :: rest, acc, _ => ⟨rfl, .error e, rfl⟩
  | .ok (cur, ks) :: rest, acc, h => by
    by_cases hc : cur = "0"
    · subst hc
      exact ⟨rfl, .ok (mergeKeys acc ks), rfl⟩
    · have h2 : (nextBatch rest (mergeKeys acc ks)).incomplete = false := by
        simpa [nextBatch, hc] using h
      have ih := nextBatch_released_once rest (mergeKeys acc ks) h2
      obtain ⟨ih1, out, ih2⟩ := ih
      refine ⟨?_, out, ?_⟩ <;> simpa [nextBatch, hc]

/-- C2 (amended): for `get`, `set`, `del`, `reset`, `ttl` and `keys`,
on every completed outcome — command success, command error, or
codec/decode error — a successfully acquired connection is released
exactly once, before the caller's callback is invoked; with two
exceptions forced by the code: `set`'s compression-encode (gzip)
failure path invokes the callback without releasing at all, so the
`set` guarantee holds whenever the gzip step succeeds (in particular
always when compression is inactive), and `getClient` transfers
release responsibility to the caller — its callback runs before any
release and the connection is released once per invocation of the
`done` function it hands out. -/
theorem connection_release_discipline {V : Type}
    (gunzip : String → CompressCfg → Except String String)
    (jparse : Option String → Except String V)
    (stringify : V → Option String) (vshow : V → String)
    (gz : String → CompressCfg → Except String String)
    (cacheable : V → Bool) (storeTtl : Option Nat) (storeC : Option CompressCfg)
    (cmdErr : Option String) (store : Store) (k : Key) (v : V)
    (oTtl : Option Nat) (oC : CSetting)
    (dkey : Key ⊕ List Key) (ttlReply : Int)
    (steps : List ScanStep) (doneCalls : Nat)
    (hc : cacheable v = true)
    (hgz : ∀ c, resolveCompress oC storeC = some c →
      ∃ z, gz ((stringify v).getD "\"undefined\"") c = .ok z)
    (hks : (nextBatch steps []).incomplete = false) :
    releasedOnceBeforeCb
      (getOp gunzip jparse storeC (.ok ()) cmdErr store k oC).releases
      (getOp gunzip jparse storeC (.ok ()) cmdErr store k oC).cb
    ∧ releasedOnceBeforeCb
        (setOp stringify vshow gz cacheable storeTtl storeC (.ok ()) cmdErr store k v oTtl oC).releases
        (setOp stringify vshow gz cacheable storeTtl storeC (.ok ()) cmdErr store k v oTtl oC).cb
    ∧ releasedOnceBeforeCb (delOp (.ok ()) cmdErr store dkey).releases
        (delOp (.ok ()) cmdErr store dkey).cb
    ∧ releasedOnceBeforeCb (resetOp (.ok ()) cmdErr store).releases
        (resetOp (.ok ()) cmdErr store).cb
    ∧ releasedOnceBeforeCb (ttlOp (.ok ()) cmdErr ttlReply k).releases
        (ttlOp (.ok ()) cmdErr ttlReply k).cb
    ∧ releasedOnceBeforeCb (keysOp (.ok ()) steps).releases (keysOp (.ok ()) steps).cb
    ∧ (getClientOp (.ok ()) doneCalls).releases = doneCalls
    ∧ (getClientOp (.ok ()) doneCalls).cbCalls = 1
    ∧ (getClientOp (.ok ()) doneCalls).releasesBeforeCb = 0 := by
  refine ⟨?_, ?_, ?_, ?_, ?_, ?_, rfl, rfl, rfl⟩
  · cases cmdErr <;> exact ⟨rfl, _, rfl⟩
  · cases hrc : resolveCompress oC storeC with
    | none =>
      cases cmdErr <;> simp [setOp, hc, hrc, releasedOnceBeforeCb]
    | some c =>
      obtain ⟨z, hz⟩ := hgz c hrc
      cases cmdErr <;> simp [setOp, hc, hrc, hz, releasedOnceBeforeCb]
  · cases dkey <;> cases cmdErr <;> exact ⟨rfl, _, rfl⟩
  · cases cmdErr <;> exact ⟨rfl, _, rfl⟩
  · cases cmdErr <;> exact ⟨rfl, _, rfl⟩
  · have h := nextBatch_released_once steps [] hks
    obtain ⟨h1, out, h2⟩ := h
    exact ⟨by simpa [keysOp] using h1, out, by simpa [keysOp] using h2⟩

/-- Witness for C2 (amended): concrete codecs, a cacheable value, no
compression, a one-step scan and one `done` invocation. -/
theorem connection_release_discipline_witness :
    releasedOnceBeforeCb
      (getOp demoGunzip natParse none (.ok ()) none (fun _ => none) "k" .unset).releases
      (getOp demoGunzip natParse none (.ok ()) none (fun _ => none) "k" .unset).cb
    ∧ releasedOnceBeforeCb
        (setOp natStringify toString demoGzip (fun _ => true) none none (.ok ()) none
          (fun _ => none) "k" 3 none .unset).releases
        (setOp natStringify toString demoGzip (fun _ => true) none none (.ok ()) none
          (fun _ => none) "k" 3 none .unset).cb
    ∧ releasedOnceBeforeCb (delOp (.ok ()) none (fun _ => none) (.inl "a")).releases
        (delOp (.ok ()) none (fun _ => none) (.inl "a")).cb
    ∧ releasedOnceBeforeCb (resetOp (.ok ()) none (fun _ => none)).releases
        (resetOp (.ok ()) none (fun _ => none)).cb
    ∧ releasedOnceBeforeCb (ttlOp (.ok ()) none 5 "k").releases
        (ttlOp (.ok ()) none 5 "k").cb
    ∧ releasedOnceBeforeCb (keysOp (.ok ()) [Except.ok ("0", ["x"])]).releases
        (keysOp (.ok ()) [Except.ok ("0", ["x"])]).cb
    ∧ (getClientOp (.ok ()) 1).releases = 1
    ∧ (getClientOp (.ok ()) 1).cbCalls = 1
    ∧ (getClientOp (.ok ()) 1).releasesBeforeCb = 0 :=
  connection_release_discipline demoGunzip natParse natStringify toString demoGzip
    (fun _ => true) none none none (fun _ => none) "k" 3 none .unset (.inl "a") 5
    [Except.ok ("0", ["x"])] 1 rfl
    (fun _ h => Option.noConfusion h) rfl

/-- Counterexample to C2 as stated: with compression active, a gzip
failure during `set` reaches the caller's callback while the
successfully acquired connection was never released — the release is
skipped on this exit path (`persist`'s error branch, lines 244-247,
returns without `pool.release`). -/
theorem release_skipped_on_gzip_error :
    (setOp natStringify toString (fun _ _ => .error "gzipboom") (fun _ => true)
        none none (.ok ()) none (fun _ => none) "k" 3 none .on).releases = 0
    ∧ (setOp natStringify toString (fun _ _ => .error "gzipboom") (fun _ => true)
        none none (.ok ()) none (fun _ => none) "k" 3 none .on).cb
      = [(0, .error "gzipboom")] :=
  ⟨rfl, rfl⟩

/-- C5 (amended): with an explicit per-call `ttl: 0`, `set` issues a
plain SET (never SETEX) whatever the store default is; with the
per-call ttl absent, the store-wide default is the effective ttl: a
positive default yields SETEX with that default, while an absent
default — or a default of 0, which the original claim did not allow —
yields a plain SET.  So the value is stored without expiration exactly
when the effective ttl (per-call if present, else store default) is 0
or absent. -/
theorem ttl_zero_distinguished {V : Type}
    (stringify : V → Option String) (vshow : V → String)
    (gz : String → CompressCfg → Except String String)
    (cacheable : V → Bool) (store : Store) (k : Key) (v : V) (s : String)
    (hc : cacheable v = true) (hs : stringify v = some s) :
    (∀ storeTtl,
      (setOp stringify vshow gz cacheable storeTtl none (.ok ()) none store k v
        (some 0) .unset).cmds = [Cmd.setC k s])
    ∧ (∀ storeTtl, resolveTtl none storeTtl = storeTtl)
    ∧ (∀ n, n ≠ 0 →
      (setOp stringify vshow gz cacheable (some n) none (.ok ()) none store k v
        none .unset).cmds = [Cmd.setex k n s])
    ∧ (setOp stringify vshow gz cacheable none none (.ok ()) none store k v
        none .unset).cmds = [Cmd.setC k s]
    ∧ (setOp stringify vshow gz cacheable (some 0) none (.ok ()) none store k v
        none .unset).cmds = [Cmd.setC k s] := by
  have hval : (stringify v).getD "\"undefined\"" = s := by rw [hs]; rfl
  refine ⟨?_, fun _ => rfl, ?_, ?_, ?_⟩
  · intro storeTtl
    simp [setOp, hc, hval, resolveCompress, resolveTtl, ttlTruthy]
  · intro n hn
    simp [setOp, hc, hval, resolveCompress, resolveTtl, ttlTruthy, hn]
  · simp [setOp, hc, hval, resolveCompress, resolveTtl, ttlTruthy]
  · simp [setOp, hc, hval, resolveCompress, resolveTtl, ttlTruthy]

/-- Witness for C5 (amended): a concrete value; per-call ttl 0 gives a
plain SET even though the store default is 60, and an absent per-call
ttl with default 60 gives SETEX 60. -/
theorem ttl_zero_distinguished_witness :
    (setOp natStringify toString demoGzip (fun _ => true) (some 60) none (.ok ()) none
        (fun _ => none) "k" 3 (some 0) .unset).cmds = [Cmd.setC "k" "xxx"]
    ∧ (setOp natStringify toString demoGzip (fun _ => true) (some 60) none (.ok ()) none
        (fun _ => none) "k" 3 none .unset).cmds = [Cmd.setex "k" 60 "xxx"] :=
  ⟨(ttl_zero_distinguished natStringify toString demoGzip (fun _ => true)
      (fun _ => none) "k" 3 "xxx" rfl rfl).1 (some 60),
   (ttl_zero_distinguished natStringify toString demoGzip (fun _ => true)
      (fun _ => none) "k" 3 "xxx" rfl rfl).2.2.1 60 (by decide)⟩

/-- Counterexample to C5 as stated: the claim's final clause says the
value is stored without expiration *only when* both the per-call ttl
and the store default are absent.  Here the per-call ttl is absent but
the store default is present with value 0 — not absent — and the store
still issues a plain SET (no expiration). -/
theorem ttl_zero_claim_counterexample :
    (setOp natStringify toString demoGzip (fun _ => true) (some 0) none (.ok ()) none
        (fun _ => none) "k" 3 none .unset).cmds = [Cmd.setC "k" "xxx"]
    ∧ (some 0 : Option Nat) ≠ none :=
  ⟨rfl, by decide⟩

/-- C6: the default cacheable-value predicate returns false exactly on
`null` and `undefined` (so 0 and the empty string are cacheable), and
`set` on any value the predicate rejects completes with the
`'value cannot be ' + value` error having attempted no pool
acquisition and issued no command to the remote server. -/
theorem set_rejects_uncacheable
    (stringify : JSVal → Option String)
    (gz : String → CompressCfg → Except String String)
    (storeTtl : Option Nat) (storeC : Option CompressCfg)
    (acquire : Except String Unit) (cmdErr : Option String)
    (store : Store) (k : Key) (oTtl : Option Nat) (oC : CSetting)
    (v : JSVal) (hv : defaultIsCacheableValue v = false) :
    (∀ u : JSVal, defaultIsCacheableValue u = false ↔ (u = .undef ∨ u = .null))
    ∧ defaultIsCacheableValue (.num 0) = true
    ∧ defaultIsCacheableValue (.str "") = true
    ∧ (setOp stringify jsToString gz defaultIsCacheableValue storeTtl storeC acquire cmdErr
        store k v oTtl oC).acquires = 0
    ∧ (setOp stringify jsToString gz defaultIsCacheableValue storeTtl storeC acquire cmdErr
        store k v oTtl oC).cmds = []
    ∧ (setOp stringify jsToString gz defaultIsCacheableValue storeTtl storeC acquire cmdErr
        store k v oTtl oC).cb = [(0, .error ("value cannot be " ++ jsToString v))]
    ∧ (∀ k2, (setOp stringify jsToString gz defaultIsCacheableValue storeTtl storeC acquire
        cmdErr store k v oTtl oC).store k2 = store k2) := by
  refine ⟨?_, rfl, rfl, ?_, ?_, ?_, ?_⟩
  · intro u
    cases u <;> simp [defaultIsCacheableValue]
  all_goals simp [setOp, hv]

/-- Witness for C6: `set(k, null)` with the default predicate — the
error message is `value cannot be null`, nothing was acquired and no
command was issued; and 0 and the empty string are cacheable. -/
theorem set_rejects_uncacheable_witness :
    defaultIsCacheableValue (.num 0) = true
    ∧ defaultIsCacheableValue (.str "") = true
    ∧ (setOp (fun _ => some "s") jsToString demoGzip defaultIsCacheableValue none none
        (.ok ()) none (fun _ => none) "k" .null none .unset).acquires = 0
    ∧ (setOp (fun _ => some "s") jsToString demoGzip defaultIsCacheableValue none none
        (.ok ()) none (fun _ => none) "k" .null none .unset).cmds = []
    ∧ (setOp (fun _ => some "s") jsToString demoGzip defaultIsCacheableValue none none
        (.ok ()) none (fun _ => none) "k" .null none .unset).cb
      = [(0, .error "value cannot be null")] :=
  ⟨(set_rejects_uncacheable (fun _ => some "s") demoGzip none none (.ok ()) none
      (fun _ => none) "k" none .unset .null rfl).2.1,
   (set_rejects_uncacheable (fun _ => some "s") demoGzip none none (.ok ()) none
      (fun _ => none) "k" none .unset .null rfl).2.2.1,
   (set_rejects_uncacheable (fun _ => some "s") demoGzip none none (.ok ()) none
      (fun _ => none) "k" none .unset .null rfl).2.2.2.1,
   (set_rejects_uncacheable (fun _ => some "s") demoGzip none none (.ok ()) none
      (fun _ => none) "k" none .unset .null rfl).2.2.2.2.1,
   by
     have h := (set_rejects_uncacheable (fun _ => some "s") demoGzip none none (.ok ()) none
        (fun _ => none) "k" none .unset .null rfl).2.2.2.2.2.1
     simpa [jsToString] using h⟩

/-- C7: when the configuration contains a url that parses, the
effective configuration takes host, port, database index and
credential (both `auth_pass` and `password`) from the parsed url,
overriding the explicit fields, and ttl too when the query string
carries one; when the url is absent or unparsable the explicit fields
are used verbatim and no error is surfaced (the resolver returns the
original configuration). -/
theorem url_config_resolution (parse : String → Except String ParsedUrl) (args : Args) :
    (∀ u o, args.url = some u → parse u = .ok o →
      (getFromUrl parse args).host = some o.hostname
      ∧ (getFromUrl parse args).port = parseIntM o.port
      ∧ (getFromUrl parse args).db = parseIntM o.database
      ∧ (getFromUrl parse args).auth_pass = o.password
      ∧ (getFromUrl parse args).password = o.password
      ∧ (∀ t, o.queryTtl = some t → t ≠ "" →
          (getFromUrl parse args).ttl = parseIntM t)
      ∧ (o.queryTtl = none → (getFromUrl parse args).ttl = args.ttl)
      ∧ (getFromUrl parse args).extra = args.extra)
    ∧ (args.url = none → getFromUrl parse args = args)
    ∧ (∀ u e, args.url = some u → parse u = .error e → getFromUrl parse args = args) := by
  refine ⟨?_, ?_, ?_⟩
  · intro u o hu ho
    refine ⟨?_, ?_, ?_, ?_, ?_, ?_, ?_, ?_⟩ <;>
      simp [getFromUrl, hu, ho, applyOptionsToArgs, cloneArgs]
    · intro t ht hne
      simp [ht, hne]
    · intro ht
      simp [ht]
  · intro hu
    simp [getFromUrl, hu]
  · intro u e hu he
    simp [getFromUrl, hu, he]

/-- Witness for C7: a concrete parsed url overriding every explicit
field, with a ttl in the query string. -/
theorem url_config_resolution_witness :
    (getFromUrl
        (fun _ => .ok ⟨"urlhost", "1234", "2", some "pw", some "600"⟩)
        ⟨some "argshost", some 9999, some 7, some 42, some "old", some "old",
         some "redis://:pw@urlhost:1234/2?ttl=600", .unset, none, []⟩).host
      = some "urlhost"
    ∧ (getFromUrl
        (fun _ => .ok ⟨"urlhost", "1234", "2", some "pw", some "600"⟩)
        ⟨some "argshost", some 9999, some 7, some 42, some "old", some "old",
         some "redis://:pw@urlhost:1234/2?ttl=600", .unset, none, []⟩).ttl
      = some 600 := by
  have h := url_config_resolution
      (fun _ => .ok ⟨"urlhost", "1234", "2", some "pw", some "600"⟩)
      ⟨some "argshost", some 9999, some 7, some 42, some "old", some "old",
       some "redis://:pw@urlhost:1234/2?ttl=600", .unset, none, []⟩
  refine ⟨(h.1 _ _ rfl rfl).1, ?_⟩
  have ht := (h.1 _ _ rfl rfl).2.2.2.2.2.1 "600" rfl (by decide)
  rw [ht]
  rfl

/-- C8 (amended): construction leaves the caller's configuration
object unchanged exactly when a parsable url was supplied (resolution
then operates on the clone built by `applyOptionsToArgs`); with no url
— or an unparsable one — `redisOptions` aliases the caller's object
and the constructor mutates it in place: host, port and db are
overwritten with defaults when falsy, `detect_buffers` is added, and a
boolean `compress: true` is replaced by the expanded default config
object. -/
theorem constructor_args_mutation (parse : String → Except String ParsedUrl) (args : Args) :
    (urlApplies parse args = true → constructorArgsAfter parse args = args)
    ∧ (urlApplies parse args = false →
        constructorArgsAfter parse args = mutateDefaults args
        ∧ (constructorArgsAfter parse args).detect_buffers = some true
        ∧ (args.host = none →
            (constructorArgsAfter parse args).host = some "127.0.0.1")
        ∧ (args.port = none → (constructorArgsAfter parse args).port = some 6379)
        ∧ (args.compress = .on →
            (constructorArgsAfter parse args).compress = .cfg compressDefault)) := by
  constructor
  · intro h
    simp [constructorArgsAfter, h]
  · intro h
    refine ⟨?_, ?_, ?_, ?_, ?_⟩ <;>
      simp [constructorArgsAfter, h, mutateDefaults, jsOrStr, jsOrInt]
    · intro hh
      simp [hh]
    · intro hp
      simp [hp]
    · intro hcp
      simp [hcp]

/-- Witness for C8 (amended): with a parsing url the caller's object
is untouched; with no url the same object comes back mutated. -/
theorem constructor_args_mutation_witness :
    constructorArgsAfter (fun _ => .ok ⟨"h", "1", "0", none, none⟩)
      ⟨none, none, none, none, none, none, some "redis://h:1/0", .unset, none, []⟩
      = ⟨none, none, none, none, none, none, some "redis://h:1/0", .unset, none, []⟩
    ∧ (constructorArgsAfter (fun _ => .ok ⟨"h", "1", "0", none, none⟩)
        ⟨none, none, none, none, none, none, none, .unset, none, []⟩).detect_buffers
      = some true :=
  ⟨(constructor_args_mutation (fun _ => .ok ⟨"h", "1", "0", none, none⟩)
      ⟨none, none, none, none, none, none, some "redis://h:1/0", .unset, none, []⟩).1 rfl,
   ((constructor_args_mutation (fun _ => .ok ⟨"h", "1", "0", none, none⟩)
      ⟨none, none, none, none, none, none, none, .unset, none, []⟩).2 rfl).2.1⟩

/-- Counterexample to C8 as stated: constructing the store from a
configuration object with no url mutates the caller's object — here it
gains `detect_buffers: true`, its absent host becomes the loopback
default, and `compress: true` is replaced by the expanded config — so
the object does not hold its prior values on every field. -/
theorem constructor_mutates_args_counterexample :
    constructorArgsAfter (fun _ => .error "unused")
        ⟨none, none, none, none, none, none, none, .on, none, []⟩
      ≠ ⟨none, none, none, none, none, none, none, .on, none, []⟩
    ∧ (constructorArgsAfter (fun _ => .error "unused")
        ⟨none, none, none, none, none, none, none, .on, none, []⟩).detect_buffers
      = some true
    ∧ (constructorArgsAfter (fun _ => .error "unused")
        ⟨none, none, none, none, none, none, none, .on, none, []⟩).host
      = some "127.0.0.1"
    ∧ (constructorArgsAfter (fun _ => .error "unused")
        ⟨none, none, none, none, none, none, none, .on, none, []⟩).compress
      = .cfg compressDefault := by
  refine ⟨?_, rfl, rfl, rfl⟩
  intro h
  exact Option.noConfusion (congrArg Args.detect_buffers h)

/-- C9: `del` on a non-empty key list issues exactly one command — a
single MULTI/EXEC transaction containing one DEL per listed key, in
order — not one round-trip per key; on success every listed key is
gone and a subsequent `get` on each delivers the JSON-parse of a nil
reply (JavaScript `null`) to its callback, while on a batch error the
keyspace is untouched and the error is reported. -/
theorem del_batch_atomic {V : Type}
    (gunzip : String → CompressCfg → Except String String)
    (jparse : Option String → Except String V)
    (storeC : Option CompressCfg) (oC : CSetting)
    (store : Store) (ks : List Key) (vnull : V)
    (_hks : ks ≠ []) (hnull : jparse none = .ok vnull) :
    (delOp (.ok ()) none store (.inr ks)).cmds = [Cmd.multiExec (ks.map Cmd.delC)]
    ∧ (delOp (.ok ()) none store (.inr ks)).cmds.length = 1
    ∧ (∀ k, k ∈ ks → (delOp (.ok ()) none store (.inr ks)).store k = none)
    ∧ (∀ k, k ∈ ks →
        (getOp gunzip jparse storeC (.ok ()) none
          ((delOp (.ok ()) none store (.inr ks)).store) k oC).cb = [(1, .ok vnull)])
    ∧ (∀ e, (∀ k, (delOp (.ok ()) (some e) store (.inr ks)).store k = store k)
        ∧ (delOp (.ok ()) (some e) store (.inr ks)).cb = [(1, .error e)]) := by
  refine ⟨rfl, rfl, ?_, ?_, ?_⟩
  · intro k hk
    simp [delOp, hk]
  · intro k hk
    have hgone : (delOp (.ok ()) none store (.inr ks)).store k = none := by
      simp [delOp, hk]
    cases hrc : resolveCompress oC storeC <;>
      simp [getOp, hrc, hgone, hnull]
  · intro e
    exact ⟨fun k => rfl, rfl⟩

/-- Witness for C9: deleting `["k1", "k2", "k3"]` queues three DELs in
one transaction and leaves each key unreadable (`get` yields the
parsed nil). -/
theorem del_batch_atomic_witness :
    (delOp (.ok ()) none (fun _ => some "payload") (.inr ["k1", "k2", "k3"])).cmds
      = [Cmd.multiExec [Cmd.delC "k1", Cmd.delC "k2", Cmd.delC "k3"]]
    ∧ (delOp (.ok ()) none (fun _ => some "payload") (.inr ["k1", "k2", "k3"])).store "k2"
      = none
    ∧ (getOp demoGunzip (fun o => match o with
          | some t => Except.ok t.data.length
          | none => Except.ok 0)
        none (.ok ()) none
        ((delOp (.ok ()) none (fun _ => some "payload") (.inr ["k1", "k2", "k3"])).store)
        "k2" .unset).cb = [(1, .ok 0)] :=
  ⟨(del_batch_atomic demoGunzip (fun o => match o with
      | some t => Except.ok t.data.length
      | none => Except.ok 0) none .unset (fun _ => some "payload")
      ["k1", "k2", "k3"] 0 (by decide) rfl).1,
   (del_batch_atomic demoGunzip (fun o => match o with
      | some t => Except.ok t.data.length
      | none => Except.ok 0) none .unset (fun _ => some "payload")
      ["k1", "k2", "k3"] 0 (by decide) rfl).2.2.1 "k2" (by decide),
   (del_batch_atomic demoGunzip (fun o => match o with
      | some t => Except.ok t.data.length
      | none => Except.ok 0) none .unset (fun _ => some "payload")
      ["k1", "k2", "k3"] 0 (by decide) rfl).2.2.2.1 "k2" (by decide)⟩

/-- C10: `get` mutates the caller-supplied options object: it always
assigns `options.parse = true`, and whenever the resolved compression
is active it overwrites `options.compress` with the resolved config
object — in particular a boolean `true` is expanded to the full
default gzip configuration — while an inactive resolution leaves
`options.compress` untouched; a caller reusing the object observes the
injected fields afterwards. -/
theorem get_mutates_options (o : GetOptions) (storeC : Option CompressCfg) :
    (getOptionsAfter o storeC).parse = some true
    ∧ (∀ c, resolveCompress o.compress storeC = some c →
        (getOptionsAfter o storeC).compress = .cfg c)
    ∧ (∀ storeC2, resolveCompress .on storeC2 = some compressDefault)
    ∧ (resolveCompress o.compress storeC = none →
        (getOptionsAfter o storeC).compress = o.compress) := by
  refine ⟨?_, ?_, fun _ => rfl, ?_⟩
  · cases hrc : resolveCompress o.compress storeC <;> simp [getOptionsAfter, hrc]
  · intro c hrc
    simp [getOptionsAfter, hrc]
  · intro hrc
    simp [getOptionsAfter, hrc]

/-- Witness for C10: an options object with `compress` unset against a
store-wide gzip config — after `get`, `parse` is injected and
`compress` holds the store's config object. -/
theorem get_mutates_options_witness :
    (getOptionsAfter ⟨none, .unset⟩ (some ⟨"gzip", some 9⟩)).parse = some true
    ∧ (getOptionsAfter ⟨none, .unset⟩ (some ⟨"gzip", some 9⟩)).compress
      = .cfg ⟨"gzip", some 9⟩ :=
  ⟨(get_mutates_options ⟨none, .unset⟩ (some ⟨"gzip", some 9⟩)).1,
   (get_mutates_options ⟨none, .unset⟩ (some ⟨"gzip", some 9⟩)).2.1 _ rfl⟩

end RedisStore
